import Mathlib

/-!
Verification of the vocal-stack flow-control subsystem.

The definitions below are a shallow embedding of the TypeScript sources:
- `src/flow/state-machine.ts`   (ConversationStateMachine)
- `src/flow/buffer-manager.ts`  (BufferManager)
- `src/flow/filler-injector.ts` (FillerInjector)
- `src/flow/stall-detector.ts`  (StallDetector)
- `src/flow/flow-manager.ts`    (FlowManager, the event-emitting orchestrator)
- `src/flow/flow-controller.ts` (FlowController, the stream-wrapping orchestrator)

Mutable class fields become record fields; methods become pure functions
from the record to an updated record, paired with the list of events the
method emits; a TypeScript `throw` becomes `Except.error`.  Timestamps
(`Date.now()`) are threaded in as explicit `now : Nat` arguments.
-/

namespace VocalStack

/-- The `ConversationState` enum from `src/flow/types.ts`. -/
inductive ConversationState where
  | IDLE
  | WAITING
  | SPEAKING
  | INTERRUPTED
deriving DecidableEq, Repr

open ConversationState

/-- The `VALID_TRANSITIONS` map from `src/flow/state-machine.ts` (lines 11-19). -/
def validTransitions : ConversationState → List ConversationState
  | IDLE => [SPEAKING, WAITING]
  | WAITING => [SPEAKING, IDLE, INTERRUPTED]
  | SPEAKING => [INTERRUPTED, IDLE]
  | INTERRUPTED => [IDLE, WAITING]

/-- Errors thrown by the flow subsystem.  `invalidTransition` carries the
`from`/`to` context attached to the `FlowControlError` in
`ConversationStateMachine.transition`; the session-lifecycle errors come
from `FlowManager.start` / `FlowManager.processChunk` / `FlowManager.complete`. -/
inductive FlowErr where
  | invalidTransition (src dst : ConversationState)
  | alreadyStarted
  | notStarted
deriving DecidableEq, Repr

namespace ConversationStateMachine

/-- `ConversationStateMachine.transition` (state-machine.ts lines 39-58),
viewed as a function of the mutable `currentState` field.  The guard checks
membership in `VALID_TRANSITIONS`; on failure the method throws before
assigning `currentState`, so the state is unchanged; on success the new
state is `to`.  (Listener notification is modelled separately below.) -/
def transitionE (s dst : ConversationState) : Except FlowErr ConversationState :=
  if dst ∈ validTransitions s then .ok dst else .error (.invalidTransition s dst)

/-- A sequence of `transition()` calls on one machine, collecting the list of
targets that were accepted, in order.  A call whose target is rejected throws
to the driving code and leaves `currentState` unchanged; the driver goes on
with the next call.  Returns (final state, accepted targets). -/
def runCollect (s : ConversationState) : List ConversationState →
    ConversationState × List ConversationState
  | [] => (s, [])
  | dst :: rest =>
    if dst ∈ validTransitions s then
      let (f, acc) := runCollect dst rest
      (f, dst :: acc)
    else
      runCollect s rest

/-- The listener loop of `transition` (state-machine.ts lines 52-55):
`for (const listener of this.listeners) { listener(from, to); }` with NO
try/catch.  A listener is modelled by an id and whether its body throws on
this invocation.  Returns the ids actually invoked (in subscription order)
and whether an exception escaped to the caller of `transition`.  A throwing
listener is itself invoked, but the loop stops there and the exception
propagates. -/
def notifyLoop : List (Nat × Bool) → List Nat × Bool
  | [] => ([], false)
  | (id, thr) :: rest =>
    if thr then ([id], true)
    else
      let (ids, p) := notifyLoop rest
      (id :: ids, p)

/-- `transition` including its listener loop: on a valid transition the state
is updated and then the listeners run without isolation (lines 49-57). -/
def transitionNotify (s dst : ConversationState) (ls : List (Nat × Bool)) :
    Except FlowErr (ConversationState × (List Nat × Bool)) :=
  if dst ∈ validTransitions s then .ok (dst, notifyLoop ls)
  else .error (.invalidTransition s dst)

end ConversationStateMachine

/-- `FlowManager.emit` (flow-manager.ts lines 230-239): the listener loop
wraps each invocation in try/catch (`console.error` and continue), so every
listener is invoked and no exception propagates.  Returns the ids invoked. -/
def FlowManager.emitLoop : List (Nat × Bool) → List Nat
  | [] => []
  | (id, _) :: rest => id :: FlowManager.emitLoop rest

/-- The mutable fields of `BufferManager` (buffer-manager.ts). -/
structure BufferState where
  buffer : List String
  maxSize : Nat
  head : Nat
  size : Nat
deriving DecidableEq, Repr

namespace BufferManager

/-- The `BufferManager` constructor (buffer-manager.ts lines 10-15):
`if (maxSize <= 0) throw new Error('Buffer size must be positive')`.
The argument is an integer so that non-positive inputs are expressible. -/
def mkE (maxSize : Int) : Except String BufferState :=
  if maxSize ≤ 0 then .error "Buffer size must be positive"
  else .ok { buffer := [], maxSize := maxSize.toNat, head := 0, size := 0 }

/-- A freshly constructed buffer of (positive) capacity `c`. -/
def fresh (c : Nat) : BufferState :=
  { buffer := [], maxSize := c, head := 0, size := 0 }

/-- `BufferManager.add` (lines 20-29): append while not full; once full,
overwrite at `head` and advance `head` modulo `maxSize`. -/
def add (b : BufferState) (chunk : String) : BufferState :=
  if b.size < b.maxSize then
    { b with buffer := b.buffer ++ [chunk], size := b.size + 1 }
  else
    { b with buffer := b.buffer.set b.head chunk, head := (b.head + 1) % b.maxSize }

/-- `BufferManager.getAll` (lines 34-41): a copy of the backing array while
not full; once full, `slice(head) ++ slice(0, head)` (oldest to newest). -/
def getAll (b : BufferState) : List String :=
  if b.size < b.maxSize then b.buffer
  else b.buffer.drop b.head ++ b.buffer.take b.head

/-- `BufferManager.clear` (lines 46-50). -/
def clear (b : BufferState) : BufferState :=
  { b with buffer := [], head := 0, size := 0 }

/-- `BufferManager.getSize`. -/
def getSize (b : BufferState) : Nat := b.size

/-- A sequence of `add` calls. -/
def pushAll (b : BufferState) (xs : List String) : BufferState :=
  xs.foldl add b

end BufferManager

/-- The mutable fields of `FillerInjector` (filler-injector.ts).
`lastFillerIndex` is an integer because it starts at `-1`. -/
structure FillerInjectorState where
  phrases : List String
  maxFillers : Nat
  fillersUsed : Nat
  lastFillerIndex : Int
deriving DecidableEq, Repr

namespace FillerInjector

/-- The `FillerInjector` constructor (filler-injector.ts lines 10-13): it
stores its two arguments and performs NO validation, so it is a total
function (it cannot fail on any input, including an empty phrase list). -/
def mk (phrases : List String) (maxFillers : Nat) : FillerInjectorState :=
  { phrases := phrases, maxFillers := maxFillers, fillersUsed := 0, lastFillerIndex := -1 }

/-- `FillerInjector.getFiller` (lines 18-28): `null` once
`fillersUsed >= maxFillers`; otherwise advance
`lastFillerIndex = (lastFillerIndex + 1) % phrases.length`, increment
`fillersUsed`, and return `phrases[lastFillerIndex] ?? null`.
(The JavaScript `%`-by-zero NaN case for an empty phrase list is outside
every claim's domain; out-of-range indexing maps to `none`, matching
`?? null`.) -/
def getFiller (f : FillerInjectorState) : Option String × FillerInjectorState :=
  if f.maxFillers ≤ f.fillersUsed then (none, f)
  else
    let idx : Int := (f.lastFillerIndex + 1) % (f.phrases.length : Int)
    (f.phrases[idx.toNat]?,
     { f with lastFillerIndex := idx, fillersUsed := f.fillersUsed + 1 })

/-- `FillerInjector.reset` (lines 33-36). -/
def reset (f : FillerInjectorState) : FillerInjectorState :=
  { f with fillersUsed := 0, lastFillerIndex := -1 }

/-- `FillerInjector.canInjectMore` (lines 41-43). -/
def canInjectMore (f : FillerInjectorState) : Bool :=
  f.fillersUsed < f.maxFillers

/-- The injector state after `n` successive `getFiller()` calls. -/
def stateAfter (f0 : FillerInjectorState) : Nat → FillerInjectorState
  | 0 => f0
  | n + 1 => (getFiller (stateAfter f0 n)).2

/-- The value returned by the `n`-th `getFiller()` call (0-indexed). -/
def callResult (f0 : FillerInjectorState) (n : Nat) : Option String :=
  (getFiller (stateAfter f0 n)).1

end FillerInjector

/-- The outcome of one firing of the anonymous timer callback inside
`StallDetector.scheduleStallCheck` (stall-detector.ts lines 84-96), as a
function of the detector's `lastChunkTime` field and the wall-clock `now`:
`fired` is `some elapsed` when the stall callback was invoked with that
elapsed duration, and `rearmedFor` is `some d` when the detector scheduled a
fresh timer for duration `d` before the callback returned control.  The
source fires and re-arms for another full `thresholdMs` when
`elapsed >= thresholdMs`; in every other case (including
`elapsed < thresholdMs`) it does nothing: no callback and NO re-arm. -/
structure StallFireResult where
  fired : Option Nat
  rearmedFor : Option Nat
deriving DecidableEq, Repr

/-- The timer-fire logic of `StallDetector.scheduleStallCheck`
(stall-detector.ts lines 86-95), assuming the callback returns normally. -/
def StallDetector.timerFire (thresholdMs : Nat) (lastChunkTime : Option Nat)
    (now : Nat) : StallFireResult :=
  match lastChunkTime with
  | none => { fired := none, rearmedFor := none }
  | some t =>
    let elapsed := now - t
    if thresholdMs ≤ elapsed then { fired := some elapsed, rearmedFor := some thresholdMs }
    else { fired := none, rearmedFor := none }

/-- The outcome of one timer firing when the stall callback may throw:
`rearmed` says whether `scheduleStallCheck` ran again, `exnPropagated`
whether the callback's exception escaped the timer callback. -/
structure StallFireOutcome where
  fired : Option Nat
  rearmed : Bool
  exnPropagated : Bool
deriving DecidableEq, Repr

/-- The timer-fire logic with an explicitly-modelled callback outcome.  In
the source the body is `this.onStall(elapsed); this.scheduleStallCheck();`
with no try/finally, so a throwing callback skips the re-arm and its
exception escapes. -/
def StallDetector.timerFireCb (thresholdMs : Nat) (lastChunkTime : Option Nat)
    (now : Nat) (callbackThrows : Bool) : StallFireOutcome :=
  match lastChunkTime with
  | none => { fired := none, rearmed := false, exnPropagated := false }
  | some t =>
    let elapsed := now - t
    if thresholdMs ≤ elapsed then
      if callbackThrows then
        { fired := some elapsed, rearmed := false, exnPropagated := true }
      else
        { fired := some elapsed, rearmed := true, exnPropagated := false }
    else { fired := none, rearmed := false, exnPropagated := false }

/-- The `FlowStats` record (flow-manager.ts lines 30-42). -/
structure FlowStats where
  fillersInjected : Nat
  stallsDetected : Nat
  chunksProcessed : Nat
  firstChunkTime : Option Nat
  totalDurationMs : Nat
deriving DecidableEq, Repr

/-- The freshly initialized statistics object. -/
def freshStats : FlowStats :=
  { fillersInjected := 0, stallsDetected := 0, chunksProcessed := 0,
    firstChunkTime := none, totalDurationMs := 0 }

/-- The `FlowEvent` tagged union (types.ts). -/
inductive FlowEvent where
  | stallDetected (durationMs : Nat)
  | fillerInjected (filler : String)
  | firstChunk (chunk : String)
  | stateChange (src dst : ConversationState)
  | interrupted
  | chunkProcessed (chunk : String)
  | completed (stats : FlowStats)
deriving DecidableEq, Repr

/-- The mutable fields of `FlowManager` (flow-manager.ts lines 22-44),
with the stall detector's own fields (`lastChunkTime`, armed timer) inlined
and the resolved configuration values it reads (`stallThresholdMs`,
`enableFillers`).  `stateChangeSubscribed` models whether the internal
`onStateChange` listener installed by `start()` is currently registered. -/
structure FlowManagerState where
  stallThresholdMs : Nat
  enableFillers : Bool
  smState : ConversationState
  filler : FillerInjectorState
  buffer : BufferState
  firstChunkEmitted : Bool
  stats : FlowStats
  startTime : Option Nat
  stateChangeSubscribed : Bool
  detLastChunkTime : Option Nat
  detTimerArmed : Bool
deriving DecidableEq, Repr

namespace FlowManager

/-- `this.stateMachine.transition(to)` as called from `FlowManager`: the
state machine's only registered listener during a session is the internal
one installed by `start()`, which emits a `state-change` event through
`emit` (whose per-listener try/catch prevents any exception from escaping,
so this call throws exactly when the transition is invalid). -/
def fmTransition (m : FlowManagerState) (dst : ConversationState) :
    Except FlowErr (FlowManagerState × List FlowEvent) :=
  if dst ∈ validTransitions m.smState then
    .ok ({ m with smState := dst },
         if m.stateChangeSubscribed then [.stateChange m.smState dst] else [])
  else .error (.invalidTransition m.smState dst)

/-- The private `FlowManager.reset` (flow-manager.ts lines 241-252). -/
def resetInternal (m : FlowManagerState) : FlowManagerState :=
  { m with firstChunkEmitted := false,
           filler := FillerInjector.reset m.filler,
           buffer := BufferManager.clear m.buffer,
           stats := freshStats }

/-- `FlowManager.start` (lines 78-96): throws `AlreadyStarted` when
`startTime` is non-null; otherwise resets internals, records `startTime`,
transitions to `WAITING` (before the internal state-change listener is
subscribed, so this transition emits nothing), starts the stall detector,
then subscribes the state-change listener. -/
def start (m : FlowManagerState) (now : Nat) :
    Except FlowErr (FlowManagerState × List FlowEvent) :=
  if m.startTime ≠ none then .error .alreadyStarted
  else
    let m1 := { resetInternal m with startTime := some now }
    match fmTransition m1 WAITING with
    | .error e => .error e
    | .ok (m2, evs) =>
      .ok ({ m2 with detLastChunkTime := some now, detTimerArmed := true,
                     stateChangeSubscribed := true }, evs)

/-- `FlowManager.processChunk` (lines 101-132): throws `NotStarted` when no
session is active; silently drops the chunk when the state is
`INTERRUPTED`; otherwise notifies the stall detector, counts the chunk,
appends it to the buffer, and on the very first chunk records the latency,
transitions to `SPEAKING` and emits `first-chunk`, then emits
`chunk-processed`. -/
def processChunk (m : FlowManagerState) (chunk : String) (now : Nat) :
    Except FlowErr (FlowManagerState × List FlowEvent) :=
  match m.startTime with
  | none => .error .notStarted
  | some t0 =>
    if m.smState = INTERRUPTED then .ok (m, [])
    else
      let m1 := { m with detLastChunkTime := some now, detTimerArmed := true,
                         stats := { m.stats with
                           chunksProcessed := m.stats.chunksProcessed + 1 } }
      let m2 := { m1 with buffer := BufferManager.add m1.buffer chunk }
      if m2.firstChunkEmitted = false then
        let m3 := { m2 with firstChunkEmitted := true,
                            stats := { m2.stats with firstChunkTime := some (now - t0) } }
        match fmTransition m3 SPEAKING with
        | .error e => .error e
        | .ok (m4, evs) =>
          .ok (m4, evs ++ [.firstChunk chunk, .chunkProcessed chunk])
      else .ok (m2, [.chunkProcessed chunk])

/-- `FlowManager.complete` (lines 137-162): throws `NotStarted` when no
session is active; stops the detector, records the total duration,
transitions to `IDLE` unless already `INTERRUPTED`, emits `completed` with a
copy of the stats, unsubscribes the state-change listener and clears
`startTime`. -/
def complete (m : FlowManagerState) (now : Nat) :
    Except FlowErr (FlowManagerState × List FlowEvent) :=
  match m.startTime with
  | none => .error .notStarted
  | some t0 =>
    let m1 := { m with detTimerArmed := false, detLastChunkTime := none,
                       stats := { m.stats with totalDurationMs := now - t0 } }
    if m1.smState = INTERRUPTED then
      .ok ({ m1 with stateChangeSubscribed := false, startTime := none },
           [.completed m1.stats])
    else
      match fmTransition m1 IDLE with
      | .error e => .error e
      | .ok (m2, evs) =>
        .ok ({ m2 with stateChangeSubscribed := false, startTime := none },
             evs ++ [.completed m2.stats])

/-- `FlowManager.interrupt` (lines 167-179): a no-op unless the current
state is `SPEAKING` or `WAITING`; otherwise transitions to `INTERRUPTED`,
stops the stall detector, resets the filler injector, clears the buffer and
emits `interrupted`. -/
def interrupt (m : FlowManagerState) :
    Except FlowErr (FlowManagerState × List FlowEvent) :=
  if m.smState = SPEAKING ∨ m.smState = WAITING then
    match fmTransition m INTERRUPTED with
    | .error e => .error e
    | .ok (m1, evs) =>
      .ok ({ m1 with detTimerArmed := false, detLastChunkTime := none,
                     filler := FillerInjector.reset m1.filler,
                     buffer := BufferManager.clear m1.buffer },
           evs ++ [.interrupted])
  else .ok (m, [])

/-- `FlowManager.handleStall` (lines 202-228): counts the stall and emits
`stall-detected`; then, only when fillers are enabled AND no first chunk has
been emitted AND the state is not `INTERRUPTED`, requests the next filler
and, if one is returned, counts and emits it.  Fillers are never written to
the buffer and never touch `firstChunkEmitted`. -/
def handleStall (m : FlowManagerState) (durationMs : Nat) :
    FlowManagerState × List FlowEvent :=
  if m.enableFillers = true ∧ m.firstChunkEmitted = false ∧ m.smState ≠ INTERRUPTED then
    match FillerInjector.getFiller m.filler with
    | (some f, f') =>
      ({ m with filler := f',
                stats := { m.stats with
                  stallsDetected := m.stats.stallsDetected + 1,
                  fillersInjected := m.stats.fillersInjected + 1 } },
       [.stallDetected durationMs, .fillerInjected f])
    | (none, f') =>
      ({ m with filler := f',
                stats := { m.stats with
                  stallsDetected := m.stats.stallsDetected + 1 } },
       [.stallDetected durationMs])
  else
    ({ m with stats := { m.stats with
         stallsDetected := m.stats.stallsDetected + 1 } },
     [.stallDetected durationMs])

/-- `FlowManager.getBufferedChunks` (lines 198-200). -/
def getBufferedChunks (m : FlowManagerState) : List String :=
  BufferManager.getAll m.buffer

end FlowManager

/-- One step of an interleaved session drive: a `processChunk` call, a
stall-timer firing, an `interrupt()` call, or a `complete()` call.  An
exception thrown by a call propagates to the driving caller, who continues;
the orchestrator state is then unchanged and nothing was emitted. -/
inductive FlowAct where
  | chunk (s : String) (now : Nat)
  | stallFire (now : Nat)
  | barge
  | finish (now : Nat)
deriving DecidableEq, Repr

/-- Execute one interleaving step.  A stall-timer firing follows
`StallDetector.scheduleStallCheck`: the callback runs only while the timer
is armed (`stop()` clears it) and `lastChunkTime` is non-null; it invokes
`handleStall` and re-arms when the elapsed silence reaches the threshold,
and otherwise does nothing, leaving the timer chain dead. -/
def runAct (m : FlowManagerState) : FlowAct → FlowManagerState × List FlowEvent
  | .chunk s now =>
    match FlowManager.processChunk m s now with
    | .ok r => r
    | .error _ => (m, [])
  | .stallFire now =>
    if m.detTimerArmed then
      match m.detLastChunkTime with
      | some t =>
        if m.stallThresholdMs ≤ now - t then FlowManager.handleStall m (now - t)
        else ({ m with detTimerArmed := false }, [])
      | none => ({ m with detTimerArmed := false }, [])
    else (m, [])
  | .barge =>
    match FlowManager.interrupt m with
    | .ok r => r
    | .error _ => (m, [])
  | .finish now =>
    match FlowManager.complete m now with
    | .ok r => r
    | .error _ => (m, [])

/-- Execute a whole interleaving, concatenating the emitted events. -/
def runActs (m : FlowManagerState) : List FlowAct → FlowManagerState × List FlowEvent
  | [] => (m, [])
  | a :: rest =>
    let (m1, evs) := runAct m a
    let (mf, tr) := runActs m1 rest
    (mf, evs ++ tr)

/-- Is this event a synthetic filler emission? -/
def FlowEvent.isFillerInjected : FlowEvent → Bool
  | .fillerInjected _ => true
  | _ => false

/-- Is this event the forwarding of a real unit (`first-chunk` or
`chunk-processed`)? -/
def FlowEvent.isRealUnit : FlowEvent → Bool
  | .firstChunk _ => true
  | .chunkProcessed _ => true
  | _ => false

/-- No filler emission anywhere in the trace. -/
def noFillerEvents (tr : List FlowEvent) : Bool :=
  tr.all (fun e => !e.isFillerInjected)

/-- Every filler emission in the trace occurs strictly before the first
real-unit event. -/
def fillersOnlyBeforeFirstUnit : List FlowEvent → Bool
  | [] => true
  | e :: rest =>
    if e.isRealUnit then noFillerEvents rest
    else fillersOnlyBeforeFirstUnit rest

/-- The loop body of `FlowController.wrap` (flow-controller.ts lines 72-93)
over a finite input, each chunk tagged with its arrival time; returns the
chunks yielded downstream.  The loop checks for `INTERRUPTED` before
touching each chunk and terminates without yielding further chunks. -/
def FlowController.wrapRun (m : FlowManagerState) :
    List (String × Nat) → Except FlowErr (FlowManagerState × List String)
  | [] => .ok (m, [])
  | (c, now) :: rest =>
    if m.smState = INTERRUPTED then .ok (m, [])
    else
      let m1 := { m with detLastChunkTime := some now, detTimerArmed := true,
                         stats := { m.stats with
                           chunksProcessed := m.stats.chunksProcessed + 1 } }
      let m2 := { m1 with buffer := BufferManager.add m1.buffer c }
      if m2.firstChunkEmitted = false then
        let m3 := { m2 with firstChunkEmitted := true,
                            stats := { m2.stats with
                              firstChunkTime := some (now - m2.startTime.getD now) } }
        match FlowManager.fmTransition m3 SPEAKING with
        | .error e => .error e
        | .ok (m4, _) =>
          match FlowController.wrapRun m4 rest with
          | .error e => .error e
          | .ok (mf, ys) => .ok (mf, c :: ys)
      else
        match FlowController.wrapRun m2 rest with
        | .error e => .error e
        | .ok (mf, ys) => .ok (mf, c :: ys)

/-- The resolved configuration a `FlowManager` is constructed with (after
the `??`-defaulting in flow-manager.ts lines 47-53).  `bufferSize` is an
integer so that non-positive capacities are expressible. -/
structure FlowManagerConfigR where
  stallThresholdMs : Nat
  fillerPhrases : List String
  enableFillers : Bool
  maxFillersPerResponse : Nat
  bufferSize : Int
deriving DecidableEq, Repr

/-- The `FlowManager` constructor (flow-manager.ts lines 46-65): builds the
state machine, filler injector (no validation of the phrase list), buffer
manager (throws when `bufferSize <= 0`) and stall detector. -/
def FlowManager.mkE (cfg : FlowManagerConfigR) : Except String FlowManagerState :=
  match BufferManager.mkE cfg.bufferSize with
  | .error e => .error e
  | .ok buf =>
    .ok { stallThresholdMs := cfg.stallThresholdMs,
          enableFillers := cfg.enableFillers,
          smState := IDLE,
          filler := FillerInjector.mk cfg.fillerPhrases cfg.maxFillersPerResponse,
          buffer := buf,
          firstChunkEmitted := false,
          stats := freshStats,
          startTime := none,
          stateChangeSubscribed := false,
          detLastChunkTime := none,
          detTimerArmed := false }

/-- Relation between the internal circular-buffer representation reached by
pushing `xs` into a fresh buffer of capacity `c` and the pushed list `xs`:
while not full the backing array is exactly `xs` with `head = 0`; once full,
the rotation `drop head ++ take head` of the backing array is the window of
the last `c` pushed items. -/
def BufferManager.inv (c : Nat) (xs : List String) (b : BufferState) : Prop :=
  b.maxSize = c ∧
  ((xs.length < c ∧ b = ⟨xs, c, 0, xs.length⟩) ∨
   (c ≤ xs.length ∧ b.size = c ∧ b.buffer.length = c ∧ b.head < c ∧
    b.buffer.drop b.head ++ b.buffer.take b.head = xs.drop (xs.length - c)))

/-- A sample resolved configuration with an empty filler-phrase list and
fillers enabled (all other options at their documented defaults). -/
def emptyPhrasesConfig : FlowManagerConfigR :=
  { stallThresholdMs := 700, fillerPhrases := [], enableFillers := true,
    maxFillersPerResponse := 3, bufferSize := 10 }

/-- A freshly constructed sample manager (threshold 50, phrases `["um"]`,
at most 1 filler, buffer capacity 2), used to instantiate the session
theorems at concrete inputs. -/
def sampleFresh : FlowManagerState :=
  { stallThresholdMs := 50, enableFillers := true, smState := IDLE,
    filler := FillerInjector.mk ["um"] 1, buffer := BufferManager.fresh 2,
    firstChunkEmitted := false, stats := freshStats, startTime := none,
    stateChangeSubscribed := false, detLastChunkTime := none, detTimerArmed := false }

/-- `sampleFresh` after `start()` at time 0. -/
def startedW : FlowManagerState :=
  { sampleFresh with smState := WAITING, startTime := some 0,
                     detLastChunkTime := some 0, detTimerArmed := true,
                     stateChangeSubscribed := true }

/-- `startedW` after `processChunk "a"` at time 10 (the first real unit). -/
def speakingSession : FlowManagerState :=
  { startedW with smState := SPEAKING, firstChunkEmitted := true,
                  detLastChunkTime := some 10,
                  buffer := { buffer := ["a"], maxSize := 2, head := 0, size := 1 },
                  stats := { freshStats with chunksProcessed := 1,
                                             firstChunkTime := some 10 } }

/-- `speakingSession` after `interrupt()`. -/
def interruptedSession : FlowManagerState :=
  { speakingSession with smState := INTERRUPTED, detTimerArmed := false,
                         detLastChunkTime := none,
                         filler := FillerInjector.mk ["um"] 1,
                         buffer := BufferManager.fresh 2 }

/-- `startedW` after `interrupt()` (no chunk was processed). -/
def interruptedW : FlowManagerState :=
  { startedW with smState := INTERRUPTED, detTimerArmed := false,
                  detLastChunkTime := none }

/-- `interruptedW` after `complete()` at time 100. -/
def completedW : FlowManagerState :=
  { interruptedW with stats := { freshStats with totalDurationMs := 100 },
                      stateChangeSubscribed := false, startTime := none }

/-! ## Theorems -/

theorem ConversationStateMachine.runCollect_fst (ts : List ConversationState)
    (s : ConversationState) :
    (runCollect s ts).1 = ((runCollect s ts).2.getLast?).getD s := by
  induction ts generalizing s with
  | nil => rfl
  | cons dst rest ih =>
    by_cases h : dst ∈ validTransitions s
    · simp only [runCollect, if_pos h, ih dst]
      cases hrec : (runCollect dst rest).2 with
      | nil => simp
      | cons a l => simp [List.getLast?_cons]
    · simp only [runCollect, if_neg h, ih s]

/-- C1: after any sequence of `transition()` calls starting in `Idle`, the
state equals the target of the last accepted (in-table) transition, or `Idle`
when none was accepted; every out-of-table attempt throws
`InvalidTransition` carrying the attempted pair and leaves the state
unchanged (the throw happens before `currentState` is assigned, as reflected
in `runCollect` keeping `s` in the rejected branch); the table is exactly
Idle→{Speaking,Waiting}, Waiting→{Speaking,Idle,Interrupted},
Speaking→{Interrupted,Idle}, Interrupted→{Idle,Waiting}. -/
theorem c1_state_machine_transitions :
    (validTransitions IDLE = [SPEAKING, WAITING]
      ∧ validTransitions WAITING = [SPEAKING, IDLE, INTERRUPTED]
      ∧ validTransitions SPEAKING = [INTERRUPTED, IDLE]
      ∧ validTransitions INTERRUPTED = [IDLE, WAITING])
    ∧ (∀ s dst, dst ∉ validTransitions s →
        ConversationStateMachine.transitionE s dst = .error (.invalidTransition s dst))
    ∧ (∀ s dst, dst ∈ validTransitions s →
        ConversationStateMachine.transitionE s dst = .ok dst)
    ∧ (∀ ts, (ConversationStateMachine.runCollect IDLE ts).1 =
        (((ConversationStateMachine.runCollect IDLE ts).2.getLast?).getD IDLE)) := by
  refine ⟨⟨rfl, rfl, rfl, rfl⟩, ?_, ?_, ?_⟩
  · intro s dst h
    simp [ConversationStateMachine.transitionE, h]
  · intro s dst h
    simp [ConversationStateMachine.transitionE, h]
  · intro ts
    exact ConversationStateMachine.runCollect_fst ts IDLE

/-- Witness for C1 at concrete inputs: `Idle → Interrupted` is out of table
and throws with the pair; `Idle → Waiting` is accepted; the run
`[Waiting, Waiting, Speaking, Idle]` (second `Waiting` rejected from state
`Waiting`) ends in the last accepted target `Idle`. -/
theorem c1_state_machine_transitions_witness :
    ConversationStateMachine.transitionE IDLE INTERRUPTED =
      .error (.invalidTransition IDLE INTERRUPTED)
    ∧ ConversationStateMachine.transitionE IDLE WAITING = .ok WAITING
    ∧ (ConversationStateMachine.runCollect IDLE [WAITING, WAITING, SPEAKING, IDLE]).1 =
      (((ConversationStateMachine.runCollect IDLE
          [WAITING, WAITING, SPEAKING, IDLE]).2.getLast?).getD IDLE) :=
  ⟨c1_state_machine_transitions.2.1 IDLE INTERRUPTED (by decide),
   c1_state_machine_transitions.2.2.1 IDLE WAITING (by decide),
   c1_state_machine_transitions.2.2.2 [WAITING, WAITING, SPEAKING, IDLE]⟩

/-- C6 counterexample: on the successful transition `Idle → Waiting` with
two subscribed listeners of which the first throws, the state machine's
listener loop (state-machine.ts lines 52-55, no try/catch) invokes only
listener `0` — listener `1` is never invoked — and the exception propagates
to the caller of `transition()`.  This falsifies the claim that "all
remaining listeners are still invoked … and the exception does not
propagate" for the state machine. -/
theorem c6_counterexample :
    ConversationStateMachine.transitionNotify IDLE WAITING [(0, true), (1, false)]
      = .ok (WAITING, ([0], true))
    ∧ ([0] : List Nat) ≠ [0, 1] := by
  exact ⟨rfl, by decide⟩

/-- C6 amended: per-listener isolation holds for the orchestrator's event
listeners (`FlowManager.emit` wraps each invocation in try/catch, so every
listener is invoked in subscription order and nothing propagates), but NOT
for the state machine's listeners: there, listeners before the first
throwing one run, the throwing one runs, the rest are skipped, and the
exception propagates to the caller of `transition()` (after the state was
already updated).  When no listener throws, the state machine also invokes
all listeners in order without propagating anything. -/
theorem c6_amended_listener_isolation :
    (∀ ls : List (Nat × Bool), FlowManager.emitLoop ls = ls.map Prod.fst)
    ∧ (∀ ls : List (Nat × Bool), (∀ p ∈ ls, p.2 = false) →
        ConversationStateMachine.notifyLoop ls = (ls.map Prod.fst, false))
    ∧ (∀ (pre post : List (Nat × Bool)) (id : Nat), (∀ p ∈ pre, p.2 = false) →
        ConversationStateMachine.notifyLoop (pre ++ (id, true) :: post)
          = (pre.map Prod.fst ++ [id], true)) := by
  refine ⟨?_, ?_, ?_⟩
  · intro ls
    induction ls with
    | nil => rfl
    | cons p rest ih => simp [FlowManager.emitLoop, ih]
  · intro ls h
    induction ls with
    | nil => rfl
    | cons p rest ih =>
      have hp : p.2 = false := h p (List.mem_cons_self p rest)
      have hrest := ih (fun q hq => h q (List.mem_cons_of_mem p hq))
      simp [ConversationStateMachine.notifyLoop, hp, hrest]
  · intro pre post id h
    induction pre with
    | nil => simp [ConversationStateMachine.notifyLoop]
    | cons p rest ih =>
      have hp : p.2 = false := h p (List.mem_cons_self p rest)
      have hrest := ih (fun q hq => h q (List.mem_cons_of_mem p hq))
      simp [ConversationStateMachine.notifyLoop, hp, hrest]

/-- Witness for the amended C6: with listeners `[(0,false),(1,true),(2,false)]`,
`FlowManager.emit` invokes all of `0,1,2`; the state machine invokes `0,1`
and propagates; with no throwing listener it invokes all without
propagating. -/
theorem c6_amended_listener_isolation_witness :
    FlowManager.emitLoop [(0, false), (1, true), (2, false)] = [0, 1, 2]
    ∧ ConversationStateMachine.notifyLoop [(0, false), (1, true), (2, false)]
        = ([0, 1], true)
    ∧ ConversationStateMachine.notifyLoop [(0, false), (1, false)] = ([0, 1], false) :=
  ⟨c6_amended_listener_isolation.1 [(0, false), (1, true), (2, false)],
   c6_amended_listener_isolation.2.2 [(0, false)] [(2, false)] 1 (by decide),
   c6_amended_listener_isolation.2.1 [(0, false), (1, false)] (by decide)⟩

/-- C7 counterexample: with threshold 50, last activity at time 100 and the
timer firing at time 110 (`elapsed = 10 < 50`), the timer-fire logic of
`StallDetector.scheduleStallCheck` neither invokes the callback nor re-arms
the timer at all — in particular it does not re-arm for the remaining
`threshold - elapsed = 40` as the claim states. -/
theorem c7_counterexample :
    StallDetector.timerFire 50 (some 100) 110 = { fired := none, rearmedFor := none }
    ∧ ({ fired := none, rearmedFor := none } : StallFireResult)
        ≠ { fired := none, rearmedFor := some 40 } := by
  exact ⟨rfl, by decide⟩

/-- C7 amended: when the armed timer elapses with
`elapsed = now - lastActivityTime < threshold`, the detector does not invoke
the stall callback and does not re-arm any timer (the `if` in
stall-detector.ts lines 89-93 has no else branch), so the timer chain ends
until the next `notifyChunk()`/`start()` re-arms it. -/
theorem c7_amended_early_fire (thresholdMs t now : Nat)
    (h : now - t < thresholdMs) :
    StallDetector.timerFire thresholdMs (some t) now
      = { fired := none, rearmedFor := none } := by
  simp [StallDetector.timerFire, Nat.not_le.mpr h]

/-- Witness for the amended C7 at threshold 50, activity at 100, fire at 110. -/
theorem c7_amended_early_fire_witness :
    (110 - 100 < 50)
    ∧ StallDetector.timerFire 50 (some 100) 110
        = { fired := none, rearmedFor := none } :=
  ⟨by decide, c7_amended_early_fire 50 100 110 (by decide)⟩

/-- C8 counterexample: with threshold 50, last activity at 0 and the timer
firing at 60, a stall callback that throws leaves the detector NOT re-armed
(the source runs `this.onStall(elapsed); this.scheduleStallCheck();` with no
try/finally, so the re-arm is skipped) and the exception escapes the timer
callback — contradicting the claim that the detector re-arms regardless. -/
theorem c8_counterexample :
    StallDetector.timerFireCb 50 (some 0) 60 true
      = { fired := some 60, rearmed := false, exnPropagated := true }
    ∧ ({ fired := some 60, rearmed := false, exnPropagated := true } : StallFireOutcome).rearmed
        ≠ true := by
  exact ⟨rfl, by decide⟩

/-- C8 amended: when the timer fires with `elapsed ≥ threshold`, the
detector invokes the callback and re-arms exactly when the callback returns
normally; a throwing callback skips the re-arm (leaving the detector
disarmed until the next activity notification) and its exception escapes the
timer callback. -/
theorem c8_amended_callback_throw (thresholdMs t now : Nat) (b : Bool)
    (h : thresholdMs ≤ now - t) :
    StallDetector.timerFireCb thresholdMs (some t) now b
      = { fired := some (now - t), rearmed := !b, exnPropagated := b } := by
  cases b <;> simp [StallDetector.timerFireCb, h]

/-- Witness for the amended C8 at threshold 50, activity at 0, fire at 60,
for both callback outcomes. -/
theorem c8_amended_callback_throw_witness :
    (50 ≤ 60 - 0)
    ∧ StallDetector.timerFireCb 50 (some 0) 60 true
        = { fired := some 60, rearmed := false, exnPropagated := true }
    ∧ StallDetector.timerFireCb 50 (some 0) 60 false
        = { fired := some 60, rearmed := true, exnPropagated := false } :=
  ⟨by decide, c8_amended_callback_throw 50 0 60 true (by decide),
   c8_amended_callback_throw 50 0 60 false (by decide)⟩

/-- C9 counterexample: constructing the flow components with an EMPTY
filler-phrase list while fillers are enabled succeeds — the `FillerInjector`
constructor performs no validation (filler-injector.ts lines 10-13), and the
`FlowManager` constructor accepts the empty list as long as the buffer size
is positive.  This falsifies "constructing the flow components with an empty
filler-phrase list while fillers are enabled fails". -/
theorem c9_counterexample :
    FlowManager.mkE emptyPhrasesConfig
      = .ok { stallThresholdMs := 700, enableFillers := true, smState := IDLE,
              filler := FillerInjector.mk [] 3,
              buffer := BufferManager.fresh 10,
              firstChunkEmitted := false, stats := freshStats, startTime := none,
              stateChangeSubscribed := false, detLastChunkTime := none,
              detTimerArmed := false }
    ∧ FillerInjector.mk [] 3 =
        { phrases := [], maxFillers := 3, fillersUsed := 0, lastFillerIndex := -1 } := by
  exact ⟨rfl, rfl⟩

/-- C9 amended: construction fails exactly when the buffer capacity is
non-positive — `BufferManager`'s constructor throws iff `maxSize ≤ 0`, and
the `FlowManager` constructor fails iff its `bufferSize` is non-positive.
The `FillerInjector` constructor is total: it succeeds for every phrase
list (including the empty one, fillers enabled or not) and every maximum. -/
theorem c9_amended_construction (n : Int) (cfg : FlowManagerConfigR) :
    (n ≤ 0 → BufferManager.mkE n = .error "Buffer size must be positive")
    ∧ (0 < n → BufferManager.mkE n = .ok (BufferManager.fresh n.toNat))
    ∧ ((FlowManager.mkE cfg).isOk = true ↔ 0 < cfg.bufferSize) := by
  refine ⟨?_, ?_, ?_⟩
  · intro h
    simp [BufferManager.mkE, h]
  · intro h
    simp [BufferManager.mkE, Int.not_le.mpr h, BufferManager.fresh]
  · unfold FlowManager.mkE BufferManager.mkE
    by_cases h : cfg.bufferSize ≤ 0
    · simp [h, Except.isOk, Except.toBool, Int.not_lt.mpr h]
    · simp [h, Except.isOk, Except.toBool, Int.not_le.mp h]

/-- Witness for the amended C9: capacity 0 and -3 fail, capacity 10
succeeds, and a `FlowManager` with an empty phrase list and fillers enabled
is constructed successfully. -/
theorem c9_amended_construction_witness :
    BufferManager.mkE 0 = .error "Buffer size must be positive"
    ∧ BufferManager.mkE 10 = .ok (BufferManager.fresh 10)
    ∧ ((FlowManager.mkE emptyPhrasesConfig).isOk = true ↔
        (0 : Int) < emptyPhrasesConfig.bufferSize) :=
  ⟨(c9_amended_construction 0 emptyPhrasesConfig).1 (by decide),
   (c9_amended_construction 10 emptyPhrasesConfig).2.1 (by decide),
   (c9_amended_construction 10 emptyPhrasesConfig).2.2⟩

/-- Overwriting the slot at `head` of a full circular buffer and advancing
`head` modulo the capacity turns the rotated view into "drop the oldest,
append the new item". -/
theorem BufferManager.rotStep (B : List String) (h c : Nat) (x : String)
    (hlen : B.length = c) (hh : h < c) :
    (B.set h x).drop ((h + 1) % c) ++ (B.set h x).take ((h + 1) % c)
      = (B.drop h ++ B.take h).drop 1 ++ [x] := by
  have hhB : h < B.length := hlen ▸ hh
  have hdroplen : 1 ≤ (B.drop h).length := by
    simp only [List.length_drop]
    omega
  have hset : B.set h x = B.take h ++ x :: B.drop (h + 1) :=
    List.set_eq_take_cons_drop x hhB
  have htakelen : (B.take h).length = h := by
    simp [List.length_take]
    omega
  rcases Nat.lt_or_ge (h + 1) c with hc1 | hc1
  · rw [Nat.mod_eq_of_lt hc1]
    have h1 : (B.set h x).drop (h + 1) = B.drop (h + 1) := by
      rw [List.drop_set]
      simp
    have h2 : (B.set h x).take (h + 1) = B.take h ++ [x] := by
      rw [hset, List.take_append_eq_append_take, htakelen]
      simp [List.take_of_length_le, htakelen, Nat.le_succ]
    have h3 : (B.drop h ++ B.take h).drop 1 = B.drop (h + 1) ++ B.take h := by
      rw [List.drop_append_of_le_length hdroplen, List.drop_drop]
    rw [h1, h2, h3, List.append_assoc]
  · have hceq : c = h + 1 := Nat.le_antisymm hc1 hh
    subst hceq
    rw [Nat.mod_self]
    have hB1 : (B.drop h).length = 1 := by
      simp only [List.length_drop]
      omega
    have h3 : (B.drop h ++ B.take h).drop 1 = B.take h := by
      rw [List.drop_append_of_le_length (le_of_eq hB1.symm), List.drop_drop]
      have : B.drop (h + 1) = [] := by
        apply List.drop_eq_nil_of_le
        omega
      rw [this, List.nil_append]
    have h4 : B.set h x = B.take h ++ [x] := by
      rw [hset]
      have : B.drop (h + 1) = [] := by
        apply List.drop_eq_nil_of_le
        omega
      rw [this]
    simp [h3, h4]

/-- Pushing any sequence into a fresh buffer maintains the representation
invariant `BufferManager.inv`. -/
theorem BufferManager.pushAll_inv (c : Nat) (hc : 0 < c) (xs : List String) :
    BufferManager.inv c xs (BufferManager.pushAll (BufferManager.fresh c) xs) := by
  induction xs using List.reverseRecOn with
  | nil => exact ⟨rfl, Or.inl ⟨hc, rfl⟩⟩
  | append_singleton xs x ih =>
    have hstep : BufferManager.pushAll (BufferManager.fresh c) (xs ++ [x])
        = BufferManager.add (BufferManager.pushAll (BufferManager.fresh c) xs) x := by
      simp [BufferManager.pushAll, List.foldl_append]
    rw [hstep]
    set b := BufferManager.pushAll (BufferManager.fresh c) xs with hb
    obtain ⟨hmax, hcase⟩ := ih
    unfold BufferManager.inv
    have hlen1 : (xs ++ [x]).length = xs.length + 1 := by simp
    rw [hlen1]
    rcases hcase with ⟨hlt, hbeq⟩ | ⟨hge, hsize, hblen, hhead, hrot⟩
    · rw [hbeq]
      unfold BufferManager.add
      simp only [if_pos hlt]
      rcases Nat.lt_or_ge (xs.length + 1) c with hlt1 | hge1
      · exact ⟨True.intro, Or.inl ⟨hlt1, by simp⟩⟩
      · have hceq : xs.length + 1 = c := Nat.le_antisymm hlt hge1
        refine ⟨True.intro, Or.inr ⟨le_of_eq hceq.symm, ?_, ?_, ?_, ?_⟩⟩
        · simpa using hceq
        · simpa using hceq
        · simpa using hc
        · simp [hceq]
    · unfold BufferManager.add
      have hnotlt : ¬ b.size < b.maxSize := by omega
      simp only [if_neg hnotlt]
      refine ⟨hmax, Or.inr ⟨by omega, by simpa using hsize, by simpa using hblen,
        by simp only [hmax]; exact Nat.mod_lt _ hc, ?_⟩⟩
      simp only [hmax]
      rw [BufferManager.rotStep b.buffer b.head c x hblen hhead, hrot]
      rw [List.drop_append_eq_append_drop, List.drop_drop]
      have hdropx : [x].drop (xs.length + 1 - c - xs.length) = [x] := by
        have hz : xs.length + 1 - c - xs.length = 0 := by omega
        rw [hz, List.drop_zero]
      have hidx : xs.length - c + 1 = xs.length + 1 - c := by omega
      rw [hdropx, hidx]

/-- C4: for every positive capacity `c`, pushing exactly `c` items into a
fresh `BufferManager` and reading the snapshot yields those items in
insertion order, and pushing `c + k` items (`k ≥ 1`) yields exactly the last
`c` items pushed, oldest to newest, regardless of the internal head
position.  (`getAll` builds the snapshot from fresh copies/slices of the
backing array — in this pure embedding the returned list is a value and
cannot alias mutable storage, matching the spread-copies in the source.) -/
theorem c4_buffer_roundtrip (c : Nat) (xs : List String) (hc : 0 < c) :
    (xs.length = c →
      BufferManager.getAll (BufferManager.pushAll (BufferManager.fresh c) xs) = xs)
    ∧ (∀ k, 1 ≤ k → xs.length = c + k →
      BufferManager.getAll (BufferManager.pushAll (BufferManager.fresh c) xs)
        = xs.drop k) := by
  have hinv := BufferManager.pushAll_inv c hc xs
  obtain ⟨hmax, hcase⟩ := hinv
  set b := BufferManager.pushAll (BufferManager.fresh c) xs with hb
  constructor
  · intro hlen
    rcases hcase with ⟨hlt, _⟩ | ⟨_, hsize, _, _, hrot⟩
    · omega
    · unfold BufferManager.getAll
      have hns : ¬ b.size < b.maxSize := by omega
      simp only [if_neg hns]
      rw [hrot, hlen]
      simp
  · intro k hk hlen
    rcases hcase with ⟨hlt, _⟩ | ⟨_, hsize, _, _, hrot⟩
    · omega
    · unfold BufferManager.getAll
      have hns : ¬ b.size < b.maxSize := by omega
      simp only [if_neg hns]
      rw [hrot, hlen]
      congr 1
      omega

/-- Witness for C4 at capacity 2: pushing `["a","b"]` reads back
`["a","b"]`; pushing `["a","b","c"]` reads back `["b","c"]` (spec §8's
end-to-end example). -/
theorem c4_buffer_roundtrip_witness :
    BufferManager.getAll (BufferManager.pushAll (BufferManager.fresh 2) ["a", "b"])
      = ["a", "b"]
    ∧ BufferManager.getAll (BufferManager.pushAll (BufferManager.fresh 2) ["a", "b", "c"])
      = ["b", "c"] := by
  constructor
  · exact (c4_buffer_roundtrip 2 ["a", "b"] (by decide)).1 (by decide)
  · have := (c4_buffer_roundtrip 2 ["a", "b", "c"] (by decide)).2 1 (by decide) (by decide)
    simpa using this

/-- Advancing a round-robin index: starting from `-1` (or from the stored
`(n-1) % L`), one `(· + 1) % L` step lands on `n % L`. -/
theorem FillerInjector.idx_step (L n : Nat) (_hL : 0 < L) :
    ((if n = 0 then (-1 : Int) else (((n - 1) % L : Nat) : Int)) + 1) % (L : Int)
      = ((n % L : Nat) : Int) := by
  cases n with
  | zero =>
    simp
  | succ m =>
    rw [if_neg (Nat.succ_ne_zero m)]
    simp only [Nat.add_sub_cancel]
    have h1 : (m % L + 1) % L = (m + 1) % L := by
      conv_rhs => rw [Nat.add_mod]
      rw [Nat.add_mod (m % L) 1 L, Nat.mod_mod_of_dvd _ dvd_rfl]
    have h2 : ((((m % L : Nat) : Int)) + 1) = (((m % L + 1 : Nat) : Int)) := by
      push_cast
      ring
    rw [h2, ← Int.natCast_mod, h1]

/-- Characterization of the injector state after `n` successive `getFiller`
calls on a freshly-constructed injector over a non-empty phrase list:
`fillersUsed` saturates at `maxFillers` and `lastFillerIndex` tracks the
round-robin position. -/
theorem FillerInjector.stateAfter_mk (phrases : List String) (maxF : Nat)
    (hL : phrases ≠ []) (n : Nat) :
    FillerInjector.stateAfter (FillerInjector.mk phrases maxF) n
      = { phrases := phrases, maxFillers := maxF, fillersUsed := min n maxF,
          lastFillerIndex :=
            if min n maxF = 0 then -1
            else (((min n maxF - 1) % phrases.length : Nat) : Int) } := by
  have hL0 : 0 < phrases.length := List.length_pos.mpr hL
  induction n with
  | zero =>
    simp [FillerInjector.stateAfter, FillerInjector.mk]
  | succ n ih =>
    rw [FillerInjector.stateAfter, ih]
    rcases Nat.lt_or_ge n maxF with hlt | hge
    · have hmin : min n maxF = n := Nat.min_eq_left (Nat.le_of_lt hlt)
      have hmin1 : min (n + 1) maxF = n + 1 := Nat.min_eq_left hlt
      have hcond : ¬ maxF ≤ n := Nat.not_le.mpr hlt
      unfold FillerInjector.getFiller
      simp only [hmin, hmin1, if_neg hcond, Nat.add_sub_cancel]
      have := FillerInjector.idx_step phrases.length n hL0
      simp only [Nat.succ_ne_zero, if_neg, reduceCtorEq]
      rw [← this]
      rcases Nat.eq_zero_or_pos n with h0 | hpos
      · subst h0
        simp
      · have : n ≠ 0 := Nat.pos_iff_ne_zero.mp hpos
        simp [this]
    · have hmin : min n maxF = maxF := Nat.min_eq_right hge
      have hmin1 : min (n + 1) maxF = maxF := Nat.min_eq_right (Nat.le_succ_of_le hge)
      unfold FillerInjector.getFiller
      simp only [hmin, hmin1]
      rw [if_pos (le_refl maxF)]

/-- C5: on a fresh injector over a non-empty phrase list, the `n`-th
`getFiller()` call (0-indexed) returns `phrases[n mod len]` while
`n < maxCount` — the strict round-robin rotation with period `len(phrases)`
— and `null` once `usedCount` has reached `maxCount`; each productive call
increments `usedCount` (which equals `min n maxCount` after `n` calls);
once exhausted, `getFiller` returns `null` WITHOUT changing the state;
`reset()` returns the injector to its freshly-constructed state, and the
first call after a reset yields the first phrase again. -/
theorem c5_filler_rotation (phrases : List String) (maxF n : Nat)
    (h : phrases ≠ []) :
    (FillerInjector.callResult (FillerInjector.mk phrases maxF) n
        = if n < maxF then phrases[n % phrases.length]? else none)
    ∧ (FillerInjector.stateAfter (FillerInjector.mk phrases maxF) n).fillersUsed
        = min n maxF
    ∧ (maxF ≤ n →
        FillerInjector.getFiller
            (FillerInjector.stateAfter (FillerInjector.mk phrases maxF) n)
          = (none, FillerInjector.stateAfter (FillerInjector.mk phrases maxF) n))
    ∧ FillerInjector.reset (FillerInjector.stateAfter (FillerInjector.mk phrases maxF) n)
        = FillerInjector.mk phrases maxF
    ∧ (0 < maxF →
        FillerInjector.callResult (FillerInjector.mk phrases maxF) 0 = phrases[0]?) := by
  have hL0 : 0 < phrases.length := List.length_pos.mpr h
  have hchar := FillerInjector.stateAfter_mk phrases maxF h n
  refine ⟨?_, ?_, ?_, ?_, ?_⟩
  · unfold FillerInjector.callResult
    rw [hchar]
    rcases Nat.lt_or_ge n maxF with hlt | hge
    · have hmin : min n maxF = n := Nat.min_eq_left (Nat.le_of_lt hlt)
      have hcond : ¬ maxF ≤ n := Nat.not_le.mpr hlt
      unfold FillerInjector.getFiller
      simp only [hmin, if_neg hcond, if_pos hlt]
      rw [FillerInjector.idx_step phrases.length n hL0, Int.toNat_natCast]
    · have hmin : min n maxF = maxF := Nat.min_eq_right hge
      unfold FillerInjector.getFiller
      simp only [hmin, if_neg (Nat.not_lt.mpr hge)]
      rw [if_pos (le_refl maxF)]
  · rw [hchar]
  · intro hge
    rw [hchar]
    have hmin : min n maxF = maxF := Nat.min_eq_right hge
    unfold FillerInjector.getFiller
    simp only [hmin]
    rw [if_pos (le_refl maxF)]
  · rw [hchar]
    unfold FillerInjector.reset FillerInjector.mk
    simp
  · intro hmaxF
    unfold FillerInjector.callResult FillerInjector.stateAfter
    unfold FillerInjector.getFiller FillerInjector.mk
    simp only [if_neg (Nat.not_le.mpr hmaxF)]
    simp

/-- Witness for C5 with `phrases = ["a","b","c"]`, `maxCount = 4`: the
fourth call (index 3) wraps around to `"a"`, the fifth (index 4, equal to
`maxCount`) yields `null` without changing state, `usedCount` saturates at
4, and `reset` restores the fresh injector. -/
theorem c5_filler_rotation_witness :
    FillerInjector.callResult (FillerInjector.mk ["a", "b", "c"] 4) 3 = some "a"
    ∧ FillerInjector.callResult (FillerInjector.mk ["a", "b", "c"] 4) 4 = none
    ∧ (FillerInjector.stateAfter (FillerInjector.mk ["a", "b", "c"] 4) 7).fillersUsed = 4
    ∧ FillerInjector.getFiller
        (FillerInjector.stateAfter (FillerInjector.mk ["a", "b", "c"] 4) 4)
      = (none, FillerInjector.stateAfter (FillerInjector.mk ["a", "b", "c"] 4) 4)
    ∧ FillerInjector.reset (FillerInjector.stateAfter (FillerInjector.mk ["a", "b", "c"] 4) 7)
      = FillerInjector.mk ["a", "b", "c"] 4 := by
  refine ⟨?_, ?_, ?_, ?_, ?_⟩
  · rw [(c5_filler_rotation ["a", "b", "c"] 4 3 (by decide)).1]
    rfl
  · rw [(c5_filler_rotation ["a", "b", "c"] 4 4 (by decide)).1]
    rfl
  · rw [(c5_filler_rotation ["a", "b", "c"] 4 7 (by decide)).2.1]
    decide
  · exact (c5_filler_rotation ["a", "b", "c"] 4 4 (by decide)).2.2.1 (by decide)
  · exact (c5_filler_rotation ["a", "b", "c"] 4 7 (by decide)).2.2.2.1

theorem noFillerEvents_append (a b : List FlowEvent) :
    noFillerEvents (a ++ b) = (noFillerEvents a && noFillerEvents b) := by
  simp [noFillerEvents]

theorem fillersOnlyBeforeFirstUnit_of_noFiller (tr : List FlowEvent)
    (h : noFillerEvents tr = true) : fillersOnlyBeforeFirstUnit tr = true := by
  induction tr with
  | nil => rfl
  | cons e rest ih =>
    have he : (!e.isFillerInjected) = true := by
      have := h
      simp [noFillerEvents] at this
      simp [this.1]
    have hrest : noFillerEvents rest = true := by
      simp [noFillerEvents] at h ⊢
      exact h.2
    unfold fillersOnlyBeforeFirstUnit
    by_cases hu : e.isRealUnit = true
    · simp [hu, hrest]
    · simp [hu, ih hrest]

theorem fillersOnlyBeforeFirstUnit_cons (e : FlowEvent) (rest : List FlowEvent) :
    fillersOnlyBeforeFirstUnit (e :: rest)
      = if e.isRealUnit then noFillerEvents rest
        else fillersOnlyBeforeFirstUnit rest := rfl

theorem fillersOnlyBeforeFirstUnit_append_no_unit (evs tr : List FlowEvent)
    (h : evs.all (fun e => !e.isRealUnit) = true) :
    fillersOnlyBeforeFirstUnit (evs ++ tr) = fillersOnlyBeforeFirstUnit tr := by
  induction evs with
  | nil => rfl
  | cons e rest ih =>
    simp only [List.all_cons, Bool.and_eq_true] at h
    have he : ¬ e.isRealUnit = true := by
      simp only [Bool.not_eq_true'] at h
      simp [h.1]
    rw [List.cons_append, fillersOnlyBeforeFirstUnit_cons, if_neg he]
    exact ih h.2

/-- `handleStall` never touches the buffer and never counts a filler as the
first unit, and every event it emits is a stall or filler notification
(never a real unit). -/
theorem FlowManager.handleStall_frame (m : FlowManagerState) (d : Nat) :
    (FlowManager.handleStall m d).1.buffer = m.buffer
    ∧ (FlowManager.handleStall m d).1.firstChunkEmitted = m.firstChunkEmitted
    ∧ (FlowManager.handleStall m d).1.smState = m.smState
    ∧ (FlowManager.handleStall m d).2.all (fun e => !e.isRealUnit) = true := by
  unfold FlowManager.handleStall
  split
  · split <;> simp [FlowEvent.isRealUnit]
  · simp [FlowEvent.isRealUnit]

/-- Once the first real unit has been processed (`firstChunkEmitted`),
`handleStall` takes the suppressed branch: it does not consult the filler
injector (the injector state is unchanged) and emits only `stall-detected`. -/
theorem FlowManager.handleStall_suppressed (m : FlowManagerState) (d : Nat)
    (h : m.firstChunkEmitted = true) :
    (FlowManager.handleStall m d).1.filler = m.filler
    ∧ (FlowManager.handleStall m d).2 = [.stallDetected d] := by
  have hcond : ¬ (m.enableFillers = true ∧ m.firstChunkEmitted = false
      ∧ m.smState ≠ INTERRUPTED) := by
    intro hc
    rw [h] at hc
    exact absurd hc.2.1 (by simp)
  unfold FlowManager.handleStall
  rw [if_neg hcond]
  exact ⟨rfl, rfl⟩

/-- Step characterization for a `processChunk` call: it never emits fillers,
and either it was dropped/thrown (no events, state unchanged) or the
post-state has `firstChunkEmitted` set. -/
theorem runAct_chunk_spec (m : FlowManagerState) (s : String) (now : Nat) :
    noFillerEvents (runAct m (.chunk s now)).2 = true
    ∧ (((runAct m (.chunk s now)).2 = [] ∧ (runAct m (.chunk s now)).1 = m)
       ∨ (runAct m (.chunk s now)).1.firstChunkEmitted = true) := by
  unfold runAct FlowManager.processChunk
  cases hst : m.startTime with
  | none => simp [noFillerEvents]
  | some t0 =>
    simp only
    by_cases hint : m.smState = INTERRUPTED
    · simp [hint, noFillerEvents]
    · simp only [if_neg hint]
      by_cases hfc : m.firstChunkEmitted = false
      · simp only [hfc, if_pos rfl]
        unfold FlowManager.fmTransition
        by_cases hv : SPEAKING ∈ validTransitions m.smState
        · simp only [if_pos hv]
          constructor
          · by_cases hsub : m.stateChangeSubscribed <;>
              simp [hsub, noFillerEvents, FlowEvent.isFillerInjected]
          · right
            by_cases hsub : m.stateChangeSubscribed <;> simp [hsub]
        · simp [if_neg hv, noFillerEvents]
      · simp only [Bool.not_eq_false] at hfc
        simp [hfc, noFillerEvents, FlowEvent.isFillerInjected]

/-- Step characterization for a stall-timer firing: the flag, buffer and
state-machine state are preserved, no real-unit event is emitted, and — the
suppression invariant — if the first real unit has already been processed,
no filler is emitted and the injector is untouched. -/
theorem runAct_stall_spec (m : FlowManagerState) (now : Nat) :
    (runAct m (.stallFire now)).1.firstChunkEmitted = m.firstChunkEmitted
    ∧ (runAct m (.stallFire now)).2.all (fun e => !e.isRealUnit) = true
    ∧ (runAct m (.stallFire now)).1.buffer = m.buffer
    ∧ (m.firstChunkEmitted = true →
        noFillerEvents (runAct m (.stallFire now)).2 = true
        ∧ (runAct m (.stallFire now)).1.filler = m.filler) := by
  simp only [runAct]
  by_cases harm : m.detTimerArmed = true
  · rw [if_pos harm]
    cases hlc : m.detLastChunkTime with
    | none => simp [noFillerEvents]
    | some t =>
      simp only
      by_cases hth : m.stallThresholdMs ≤ now - t
      · rw [if_pos hth]
        obtain ⟨hbuf, hflag, _, hunits⟩ := FlowManager.handleStall_frame m (now - t)
        refine ⟨hflag, hunits, hbuf, ?_⟩
        intro h
        obtain ⟨hfil, hevs⟩ := FlowManager.handleStall_suppressed m (now - t) h
        rw [hevs]
        exact ⟨by simp [noFillerEvents, FlowEvent.isFillerInjected], hfil⟩
      · simp [if_neg hth, noFillerEvents]
  · simp only [Bool.not_eq_true] at harm
    simp [harm, noFillerEvents]

/-- Step characterization for `interrupt()` and `complete()` driven from the
caller: the flag is preserved and no real-unit or filler events are emitted. -/
theorem runAct_barge_finish_spec (m : FlowManagerState) (now : Nat) :
    ((runAct m .barge).1.firstChunkEmitted = m.firstChunkEmitted
      ∧ (runAct m .barge).2.all (fun e => !e.isRealUnit) = true
      ∧ noFillerEvents (runAct m .barge).2 = true)
    ∧ ((runAct m (.finish now)).1.firstChunkEmitted = m.firstChunkEmitted
      ∧ (runAct m (.finish now)).2.all (fun e => !e.isRealUnit) = true
      ∧ noFillerEvents (runAct m (.finish now)).2 = true) := by
  constructor
  · unfold runAct FlowManager.interrupt
    by_cases hcond : m.smState = SPEAKING ∨ m.smState = WAITING
    · simp only [if_pos hcond]
      unfold FlowManager.fmTransition
      by_cases hv : INTERRUPTED ∈ validTransitions m.smState
      · simp only [if_pos hv]
        by_cases hsub : m.stateChangeSubscribed <;>
          simp [hsub, noFillerEvents, FlowEvent.isRealUnit, FlowEvent.isFillerInjected]
      · simp [if_neg hv, noFillerEvents]
    · simp [if_neg hcond, noFillerEvents]
  · unfold runAct FlowManager.complete
    cases hst : m.startTime with
    | none => simp [noFillerEvents]
    | some t0 =>
      simp only
      by_cases hint : m.smState = INTERRUPTED
      · simp [hint, noFillerEvents, FlowEvent.isRealUnit, FlowEvent.isFillerInjected]
      · simp only [if_neg hint]
        unfold FlowManager.fmTransition
        by_cases hv : IDLE ∈ validTransitions m.smState
        · simp only [if_pos hv]
          by_cases hsub : m.stateChangeSubscribed <;>
            simp [hsub, noFillerEvents, FlowEvent.isRealUnit, FlowEvent.isFillerInjected]
        · simp [if_neg hv, noFillerEvents]

/-- The `firstChunkEmitted` flag is monotone along any interleaving step. -/
theorem runAct_flag_mono (m : FlowManagerState) (a : FlowAct)
    (h : m.firstChunkEmitted = true) : (runAct m a).1.firstChunkEmitted = true := by
  cases a with
  | chunk s now =>
    rcases (runAct_chunk_spec m s now).2 with ⟨_, heq⟩ | hflag
    · rw [heq, h]
    · exact hflag
  | stallFire now => rw [(runAct_stall_spec m now).1, h]
  | barge => rw [(runAct_barge_finish_spec m 0).1.1, h]
  | finish now => rw [(runAct_barge_finish_spec m now).2.1, h]

/-- Once the flag is set, no step of any interleaving ever emits a filler. -/
theorem runAct_noFiller_of_flag (m : FlowManagerState) (a : FlowAct)
    (h : m.firstChunkEmitted = true) : noFillerEvents (runAct m a).2 = true := by
  cases a with
  | chunk s now => exact (runAct_chunk_spec m s now).1
  | stallFire now => exact ((runAct_stall_spec m now).2.2.2 h).1
  | barge => exact (runAct_barge_finish_spec m 0).1.2.2
  | finish now => exact (runAct_barge_finish_spec m now).2.2.2

/-- A step whose events include a real unit leaves the flag set. -/
theorem runAct_unit_imp_flag (m : FlowManagerState) (a : FlowAct)
    (h : (runAct m a).2.all (fun e => !e.isRealUnit) = false) :
    (runAct m a).1.firstChunkEmitted = true := by
  cases a with
  | chunk s now =>
    rcases (runAct_chunk_spec m s now).2 with ⟨hevs, _⟩ | hflag
    · rw [hevs] at h
      simp at h
    · exact hflag
  | stallFire now => exact absurd (runAct_stall_spec m now).2.1 (by rw [h]; simp)
  | barge => exact absurd (runAct_barge_finish_spec m 0).1.2.1 (by rw [h]; simp)
  | finish now => exact absurd (runAct_barge_finish_spec m now).2.2.1 (by rw [h]; simp)

/-- A step whose events include a real unit emits no filler in that step. -/
theorem runAct_unit_imp_noFiller (m : FlowManagerState) (a : FlowAct)
    (h : (runAct m a).2.all (fun e => !e.isRealUnit) = false) :
    noFillerEvents (runAct m a).2 = true := by
  cases a with
  | chunk s now => exact (runAct_chunk_spec m s now).1
  | stallFire now => exact absurd (runAct_stall_spec m now).2.1 (by rw [h]; simp)
  | barge => exact absurd (runAct_barge_finish_spec m 0).1.2.1 (by rw [h]; simp)
  | finish now => exact absurd (runAct_barge_finish_spec m now).2.2.1 (by rw [h]; simp)

/-- After the flag is set, the whole remaining trace is filler-free. -/
theorem runActs_noFiller_of_flag (acts : List FlowAct) (m : FlowManagerState)
    (h : m.firstChunkEmitted = true) : noFillerEvents (runActs m acts).2 = true := by
  induction acts generalizing m with
  | nil => rfl
  | cons a rest ih =>
    unfold runActs
    simp only
    rw [noFillerEvents_append]
    rw [runAct_noFiller_of_flag m a h, ih (runAct m a).1 (runAct_flag_mono m a h)]
    rfl

/-- C2 (trace form): in EVERY interleaving of `processChunk` calls,
stall-timer firings, `interrupt()` and `complete()` calls, every filler
emission occurs strictly before the first real-unit event of the session;
moreover, once `firstChunkEmitted` is set, the remaining trace contains no
filler at all, `handleStall` leaves the filler injector untouched and emits
only `stall-detected`; and a stall never writes to the buffer and never
counts as the first unit. -/
theorem c2_stall_suppression (m : FlowManagerState) (acts : List FlowAct) (d : Nat) :
    fillersOnlyBeforeFirstUnit (runActs m acts).2 = true
    ∧ (m.firstChunkEmitted = true →
        noFillerEvents (runActs m acts).2 = true
        ∧ (FlowManager.handleStall m d).1.filler = m.filler
        ∧ (FlowManager.handleStall m d).2 = [.stallDetected d])
    ∧ (FlowManager.handleStall m d).1.buffer = m.buffer
    ∧ (FlowManager.handleStall m d).1.firstChunkEmitted = m.firstChunkEmitted := by
  refine ⟨?_, ?_, (FlowManager.handleStall_frame m d).1,
    (FlowManager.handleStall_frame m d).2.1⟩
  · induction acts generalizing m with
    | nil => rfl
    | cons a rest ih =>
      unfold runActs
      simp only
      by_cases hu : (runAct m a).2.all (fun e => !e.isRealUnit) = true
      · rw [fillersOnlyBeforeFirstUnit_append_no_unit _ _ hu]
        exact ih (runAct m a).1
      · have hu' := Bool.not_eq_true _ |>.mp hu
        have hflag := runAct_unit_imp_flag m a hu'
        apply fillersOnlyBeforeFirstUnit_of_noFiller
        rw [noFillerEvents_append]
        rw [runAct_unit_imp_noFiller m a hu',
            runActs_noFiller_of_flag rest (runAct m a).1 hflag]
        rfl
  · intro h
    exact ⟨runActs_noFiller_of_flag acts m h,
      (FlowManager.handleStall_suppressed m d h).1,
      (FlowManager.handleStall_suppressed m d h).2⟩

/-- Witness for C2 on a concrete session that has already emitted its first
real unit: two stall firings later, the trace holds stall notifications but
no filler; `handleStall` leaves injector, buffer and flag untouched. -/
theorem c2_stall_suppression_witness :
    speakingSession.firstChunkEmitted = true
    ∧ fillersOnlyBeforeFirstUnit
        (runActs speakingSession [.stallFire 100, .stallFire 200]).2 = true
    ∧ noFillerEvents (runActs speakingSession [.stallFire 100, .stallFire 200]).2 = true
    ∧ (FlowManager.handleStall speakingSession 90).1.filler = speakingSession.filler
    ∧ (FlowManager.handleStall speakingSession 90).2 = [.stallDetected 90]
    ∧ (FlowManager.handleStall speakingSession 90).1.buffer = speakingSession.buffer
    ∧ (FlowManager.handleStall speakingSession 90).1.firstChunkEmitted
        = speakingSession.firstChunkEmitted := by
  obtain ⟨h1, h2, h3, h4⟩ :=
    c2_stall_suppression speakingSession [.stallFire 100, .stallFire 200] 90
  obtain ⟨h5, h6, h7⟩ := h2 rfl
  exact ⟨rfl, h1, h5, h6, h7, h3, h4⟩

/-- C3: `interrupt()` is a no-op unless the state is `Speaking` or
`Waiting`; from those states it moves the machine to `Interrupted`, stops
the stall detector, resets the filler injector and clears the buffer, so
that `getBufferedChunks()` is empty afterwards; a subsequent `processChunk`
on the active session is silently dropped with no events (event form), a
subsequent `complete()` succeeds on the active session and leaves the state
at `Interrupted` rather than `Idle`, and the stream form's iteration
terminates immediately, yielding no further units. -/
theorem c3_interrupt (m : FlowManagerState) :
    (¬ (m.smState = SPEAKING ∨ m.smState = WAITING) →
        FlowManager.interrupt m = .ok (m, []))
    ∧ ((m.smState = SPEAKING ∨ m.smState = WAITING) →
        ∃ m1 evs, FlowManager.interrupt m = .ok (m1, evs)
          ∧ m1.smState = INTERRUPTED
          ∧ m1.detTimerArmed = false
          ∧ m1.detLastChunkTime = none
          ∧ m1.filler = FillerInjector.reset m.filler
          ∧ m1.buffer = BufferManager.clear m.buffer
          ∧ FlowManager.getBufferedChunks m1 = []
          ∧ (∀ s now, m1.startTime ≠ none →
              FlowManager.processChunk m1 s now = .ok (m1, []))
          ∧ (∀ now r, FlowManager.complete m1 now = .ok r →
              r.1.smState = INTERRUPTED)
          ∧ (∀ now, m1.startTime ≠ none →
              ∃ r, FlowManager.complete m1 now = .ok r)
          ∧ (∀ chunks, FlowController.wrapRun m1 chunks = .ok (m1, []))) := by
  constructor
  · intro hnot
    unfold FlowManager.interrupt
    rw [if_neg hnot]
  · intro hcond
    have hv : INTERRUPTED ∈ validTransitions m.smState := by
      rcases hcond with h | h <;> rw [h] <;> decide
    unfold FlowManager.interrupt FlowManager.fmTransition
    rw [if_pos hcond, if_pos hv]
    refine ⟨_, _, rfl, rfl, rfl, rfl, rfl, rfl, ?_, ?_, ?_, ?_, ?_⟩
    · unfold FlowManager.getBufferedChunks BufferManager.getAll BufferManager.clear
      split <;> simp
    · intro s now hst
      unfold FlowManager.processChunk
      rcases hstM : m.startTime with _ | t0
      · exact absurd hstM hst
      · simp [hstM]
    · intro now r h
      unfold FlowManager.complete at h
      rcases hstM : m.startTime with _ | t0
      · rw [hstM] at h
        exact absurd h (by simp)
      · rw [hstM] at h
        simp only [if_pos rfl] at h
        rw [← Except.ok.inj h]
    · intro now hst
      unfold FlowManager.complete
      rcases hstM : m.startTime with _ | t0
      · exact absurd hstM hst
      · simp [hstM]
    · intro chunks
      rcases chunks with _ | ⟨⟨c, now⟩, rest⟩ <;> simp [FlowController.wrapRun]

/-- Witness for C3 on a concrete active session in `Speaking`:
`interrupt()` yields the cleared `interruptedSession`, whose buffer snapshot
is empty; a further `processChunk` is dropped without events; `complete()`
succeeds and leaves the state `Interrupted`; the stream loop yields
nothing. -/
theorem c3_interrupt_witness :
    FlowManager.interrupt speakingSession
      = .ok (interruptedSession, [.stateChange SPEAKING INTERRUPTED, .interrupted])
    ∧ interruptedSession.smState = INTERRUPTED
    ∧ FlowManager.getBufferedChunks interruptedSession = []
    ∧ FlowManager.processChunk interruptedSession "x" 123
        = .ok (interruptedSession, [])
    ∧ (FlowManager.complete interruptedSession 200).map (fun r => r.1.smState)
        = .ok INTERRUPTED
    ∧ FlowController.wrapRun interruptedSession [("y", 5)]
        = .ok (interruptedSession, []) := by
  obtain ⟨m1, evs, heq, hsm, hdet, hdlc, hfil, hbuf, hgb, hpc, hcmpl, hex, hwrap⟩ :=
    (c3_interrupt speakingSession).2 (Or.inl rfl)
  have hconc : FlowManager.interrupt speakingSession
      = .ok (interruptedSession, [.stateChange SPEAKING INTERRUPTED, .interrupted]) := by
    rfl
  rw [hconc] at heq
  have hm1 : interruptedSession = m1 ∧
      ([.stateChange SPEAKING INTERRUPTED, .interrupted] : List FlowEvent) = evs := by
    have h := Except.ok.inj heq
    exact ⟨congrArg Prod.fst h, congrArg Prod.snd h⟩
  obtain ⟨hm, _⟩ := hm1
  subst hm
  refine ⟨hconc, hsm, hgb,
    hpc "x" 123 (by simp [interruptedSession, speakingSession, startedW, sampleFresh]), ?_,
    hwrap [("y", 5)]⟩
  obtain ⟨r, hr⟩ := hex 200
    (by simp [interruptedSession, speakingSession, startedW, sampleFresh])
  rw [hr]
  simp [Except.map, hcmpl 200 r hr]

/-- C10: `interrupt()` never clears the active-session marker (`startTime`),
so after `start(); interrupt()` a second `start()` throws `AlreadyStarted`;
only `complete()` clears `startTime`; and once `startTime` is cleared, a new
`start()` is accepted from either final state (`Idle` or `Interrupted` —
both have `Waiting` in their transition row). -/
theorem c10_restart_after_interrupt (m : FlowManagerState) (now now' : Nat) :
    (∀ r, FlowManager.interrupt m = .ok r → r.1.startTime = m.startTime)
    ∧ (m.startTime ≠ none → FlowManager.start m now = .error .alreadyStarted)
    ∧ (∀ r, FlowManager.complete m now = .ok r → r.1.startTime = none)
    ∧ (m.startTime = none → (m.smState = IDLE ∨ m.smState = INTERRUPTED) →
        ∃ r, FlowManager.start m now' = .ok r ∧ r.1.startTime = some now') := by
  refine ⟨?_, ?_, ?_, ?_⟩
  · intro r h
    unfold FlowManager.interrupt FlowManager.fmTransition at h
    by_cases hcond : m.smState = SPEAKING ∨ m.smState = WAITING
    · rw [if_pos hcond] at h
      have hv : INTERRUPTED ∈ validTransitions m.smState := by
        rcases hcond with hx | hx <;> rw [hx] <;> decide
      rw [if_pos hv] at h
      rw [← Except.ok.inj h]
    · rw [if_neg hcond] at h
      rw [← Except.ok.inj h]
  · intro h
    unfold FlowManager.start
    rw [if_pos h]
  · intro r h
    unfold FlowManager.complete at h
    rcases hstM : m.startTime with _ | t0
    · rw [hstM] at h
      exact absurd h (by simp)
    · rw [hstM] at h
      simp only at h
      by_cases hint : m.smState = INTERRUPTED
      · rw [if_pos hint] at h
        rw [← Except.ok.inj h]
      · rw [if_neg hint] at h
        unfold FlowManager.fmTransition at h
        by_cases hv : IDLE ∈ validTransitions m.smState
        · rw [if_pos hv] at h
          rw [← Except.ok.inj h]
        · rw [if_neg hv] at h
          exact absurd h (by simp)
  · intro hst hfin
    have hv : WAITING ∈ validTransitions (FlowManager.resetInternal m).smState := by
      show WAITING ∈ validTransitions m.smState
      rcases hfin with hx | hx <;> rw [hx] <;> decide
    unfold FlowManager.start FlowManager.fmTransition
    rw [if_neg (by simp [hst])]
    simp only [FlowManager.resetInternal] at hv ⊢
    rw [if_pos hv]
    exact ⟨_, rfl, rfl⟩

/-- Witness for C10 on a concrete run: `start` at 0, `interrupt` (which
keeps `startTime = some 0`), then `start` throws `AlreadyStarted`;
`complete` at 100 clears `startTime`; a fresh `start` at 20 on the
completed (still-`Interrupted`) manager is accepted. -/
theorem c10_restart_after_interrupt_witness :
    (FlowManager.interrupt startedW).map (fun r => r.1.startTime) = .ok (some 0)
    ∧ FlowManager.start interruptedW 5 = .error .alreadyStarted
    ∧ (FlowManager.complete interruptedW 100).map (fun r => r.1.startTime) = .ok none
    ∧ (FlowManager.start completedW 20).isOk = true := by
  refine ⟨?_, ?_, ?_, ?_⟩
  · have h := (c10_restart_after_interrupt startedW 5 5).1
      (interruptedW, [.stateChange WAITING INTERRUPTED, .interrupted]) rfl
    have hconc : FlowManager.interrupt startedW
        = .ok (interruptedW, [.stateChange WAITING INTERRUPTED, .interrupted]) := rfl
    rw [hconc]
    exact congrArg Except.ok (h.trans (rfl : startedW.startTime = some 0))
  · exact (c10_restart_after_interrupt interruptedW 5 5).2.1
      (by simp [interruptedW, startedW, sampleFresh])
  · have hconc : FlowManager.complete interruptedW 100
        = .ok (completedW, [.completed { freshStats with totalDurationMs := 100 }]) := rfl
    have h := (c10_restart_after_interrupt interruptedW 100 100).2.2.1
      (completedW, [.completed { freshStats with totalDurationMs := 100 }]) hconc
    rw [hconc]
    exact congrArg Except.ok h
  · obtain ⟨r, hr, _⟩ := (c10_restart_after_interrupt completedW 5 20).2.2.2
      (by simp [completedW, interruptedW, startedW, sampleFresh])
      (Or.inr (by simp [completedW, interruptedW, startedW, sampleFresh]))
    rw [hr]
    rfl

end VocalStack
